import Mathlib

/-!
Shallow embedding of `src/index.ts` (Cloudflare Durable Object "domain ledger"
plus its HTTP front controller) and proofs of the specification claims.

The durable storage is a key-value map from strings to values.  The TypeScript
code stores either a number (request counter) or an array of offers under the
same key `domain:<name>`; the `get<T>` type parameters are compile-time casts
only, so the embedding keeps a sum type for stored values and models the
JavaScript truthiness (`|| 0`, `|| []`) and coercion behavior exactly.
-/

/-- A JavaScript number as used for the request counter: an integer or NaN
(NaN arises when `requests++` coerces a non-empty array of objects). -/
inductive JsNum where
  | int (n : Int)
  | nan
deriving DecidableEq, Repr

/-- JavaScript truthiness of a number: `0` and `NaN` are falsy. -/
def JsNum.truthy : JsNum → Bool
  | .int n => n ≠ 0
  | .nan => false

/-- The `DomainOffer` interface of the source: email, amount, optional
description, and a server-assigned ISO timestamp string. -/
structure DomainOffer where
  email : String
  amount : Int
  description : Option String
  timestamp : String
deriving DecidableEq, Repr

/-- The input to `submitDomainOffer`: `Omit<DomainOffer, "timestamp">`. -/
structure OfferInput where
  email : String
  amount : Int
  description : Option String
deriving DecidableEq, Repr

/-- A value stored in durable storage under a `domain:<name>` key: either a
number (counter usage) or an array of offers (offer-log usage). -/
inductive StoredVal where
  | num (v : JsNum)
  | offers (l : List DomainOffer)
deriving DecidableEq, Repr

/-- Durable storage: an association list of keys and stored values. -/
abbrev Storage := List (String × StoredVal)

/-- `ctx.storage.get(key)`: the stored value, or none when the key is absent. -/
def storageGet (st : Storage) (k : String) : Option StoredVal :=
  match st with
  | [] => none
  | (k2, v) :: rest => if k2 = k then some v else storageGet rest k

/-- `ctx.storage.put(key, v)`: replace the value at the key (or append it). -/
def storagePut (st : Storage) (k : String) (v : StoredVal) : Storage :=
  match st with
  | [] => [(k, v)]
  | (k2, v2) :: rest => if k2 = k then (k, v) :: rest else (k2, v2) :: storagePut rest k v

/-- The storage key used by every ledger operation: `` `domain:${domain}` ``. -/
def storageKey (domain : String) : String := "domain:" ++ domain

/-- `(await get(key)) || 0` as evaluated on the actual stored value: an absent
key or a falsy number yields `0`; an array is always truthy in JavaScript and
passes through. -/
def jsOrZero : Option StoredVal → JsNum ⊕ List DomainOffer
  | none => .inl (.int 0)
  | some (.num v) => if v.truthy then .inl v else .inl (.int 0)
  | some (.offers l) => .inr l

/-- `requests++` on the value produced by `jsOrZero`: a number is incremented;
an array is coerced by `ToNumber` first (`[] → 0`, a non-empty array of plain
objects → NaN). -/
def jsIncrement : JsNum ⊕ List DomainOffer → JsNum
  | .inl (.int n) => .int (n + 1)
  | .inl .nan => .nan
  | .inr [] => .int 1
  | .inr (_ :: _) => .nan

/-- `(await get(key)) || []` as evaluated on the actual stored value: an absent
key or a falsy number yields `[]`; a truthy number passes through as a number,
on which the later `offers.push` would throw. -/
def jsOrEmpty : Option StoredVal → JsNum ⊕ List DomainOffer
  | none => .inr []
  | some (.num v) => if v.truthy then .inl v else .inr []
  | some (.offers l) => .inr l

/-- Result of `trackDomainRequest`. -/
structure TrackResult where
  domain : String
  requests : JsNum
  timestamp : String
deriving DecidableEq, Repr

/-- `trackDomainRequest`: read the value under `domain:<name>` (defaulting a
falsy read to 0), increment it, store it back, and return the new count with
a timestamp.  `now` stands for `new Date().toISOString()`. -/
def trackDomainRequest (domain : String) (now : String) (st : Storage) :
    TrackResult × Storage :=
  let key := storageKey domain
  let requests := jsIncrement (jsOrZero (storageGet st key))
  (⟨domain, requests, now⟩, storagePut st key (.num requests))

/-- `getDomainRequests`: `return (await get(key)) || 0` — a pure read. -/
def getDomainRequests (domain : String) (st : Storage) :
    (JsNum ⊕ List DomainOffer) × Storage :=
  (jsOrZero (storageGet st (storageKey domain)), st)

/-- Result of `submitDomainOffer`. -/
structure SubmitResult where
  domain : String
  offer : DomainOffer
  totalOffers : Nat
deriving DecidableEq, Repr

/-- `submitDomainOffer`: read the offer list under `domain:<name>` (defaulting
a falsy read to `[]`), push a new timestamped offer, store the list back, and
return the new offer plus the list length.  When the stored value is a truthy
number, `offers.push` throws a TypeError before any write; this is the
`.error` case. -/
def submitDomainOffer (domain : String) (input : OfferInput) (now : String)
    (st : Storage) : Except Unit SubmitResult × Storage :=
  let key := storageKey domain
  match jsOrEmpty (storageGet st key) with
  | .inl _ => (.error (), st)
  | .inr l =>
    let newOffer : DomainOffer := ⟨input.email, input.amount, input.description, now⟩
    let offers := l ++ [newOffer]
    (.ok ⟨domain, newOffer, offers.length⟩, storagePut st key (.offers offers))

/-- `getDomainOffers`: `return (await get(key)) || []` — a pure read. -/
def getDomainOffers (domain : String) (st : Storage) :
    (JsNum ⊕ List DomainOffer) × Storage :=
  (jsOrEmpty (storageGet st (storageKey domain)), st)

/-! The HTTP front controller (`fetch`). -/

/-- The fixed CORS header set of the source. -/
def corsHeaders : List (String × String) :=
  [("Access-Control-Allow-Origin", "https://agi-2025.com"),
   ("Access-Control-Allow-Methods", "GET,HEAD,POST,OPTIONS"),
   ("Access-Control-Allow-Headers", "Content-Type,Authorization"),
   ("Access-Control-Max-Age", "86400")]

/-- Parsed JSON body of a POST request, restricted to the three fields the
router destructures; `none` in a field models an absent (undefined) field. -/
structure PostBody where
  email : Option String
  amount : Option Int
  description : Option String
deriving DecidableEq, Repr

/-- An HTTP request as the router observes it: method, the `Authorization`
header (`none` when absent), the `domain` query parameter (`none` when
absent), and the JSON-parse result of the body (`none` when parsing throws). -/
structure Request where
  method : String
  authorization : Option String
  domain : Option String
  body : Option PostBody
deriving DecidableEq, Repr

/-- Response bodies the router can produce. -/
inductive RespBody where
  | empty
  | text (s : String)
  | offersJson (domain : String) (offers : JsNum ⊕ List DomainOffer)
  | submitJson (result : SubmitResult)
deriving DecidableEq, Repr

/-- An HTTP response: status, body, headers. -/
structure Response where
  status : Nat
  body : RespBody
  headers : List (String × String)
deriving DecidableEq, Repr

/-- A call the router makes on the Durable Object stub. -/
inductive LedgerCall where
  | submit (domain : String) (input : OfferInput)
  | listOffers (domain : String)
deriving DecidableEq, Repr

/-- JavaScript truthiness of the destructured `email` field: absent
(undefined) and the empty string are falsy. -/
def jsStrTruthy : Option String → Bool
  | none => false
  | some s => s ≠ ""

/-- JavaScript truthiness of the destructured `amount` field: absent
(undefined) and `0` are falsy. -/
def jsIntTruthy : Option Int → Bool
  | none => false
  | some n => n ≠ 0

/-- Split a character list at every occurrence of `c`, keeping empty
segments, as the JavaScript single-character `split` does. -/
def splitChar (c : Char) : List Char → List (List Char)
  | [] => [[]]
  | a :: rest =>
    match splitChar c rest with
    | [] => [[a]]
    | g :: gs => if a = c then [] :: g :: gs else (a :: g) :: gs

/-- JavaScript `s.split(" ")`. -/
def jsSplitOnSpace (s : String) : List String :=
  (splitChar ' ' s.data).map String.mk

/-- `charsPrefix p s` is true when `p` is a prefix of `s`. -/
def charsPrefix : List Char → List Char → Bool
  | [], _ => true
  | _ :: _, [] => false
  | a :: as, b :: bs => a = b && charsPrefix as bs

/-- JavaScript `s.startsWith(p)`. -/
def jsStartsWith (s p : String) : Bool := charsPrefix p.data s.data

/-- The authorization check of the router, read off the condition
`!authToken || !authToken.startsWith("Bearer ") ||
authToken.split(" ")[1] !== env.AUTH_TOKEN` (negated: the request passes).
An empty-string header fails the first clause in JavaScript and the prefix
test here, with the same outcome. -/
def authOk (authToken : Option String) (secret : String) : Bool :=
  match authToken with
  | none => false
  | some t =>
    jsStartsWith t "Bearer " &&
      match (jsSplitOnSpace t)[1]? with
      | some tok => tok = secret
      | none => false

/-- The `fetch` handler.  `secret` is `env.AUTH_TOKEN`, `now` the timestamp the
Durable Object would assign, `st` the durable storage of the addressed object.
Returns the response, the resulting storage, and the ledger calls made. -/
def fetch (req : Request) (secret : String) (now : String) (st : Storage) :
    Response × Storage × List LedgerCall :=
  if req.method = "OPTIONS" then
    (⟨200, .empty, corsHeaders⟩, st, [])
  else if authOk req.authorization secret = false then
    (⟨401, .text "Unauthorized", corsHeaders ++ [("Content-Type", "application/json")]⟩,
      st, [])
  else if req.domain.getD "" = "" then
    (⟨400, .text "Domain parameter is required", []⟩, st, [])
  else
    let domain := req.domain.getD ""
    if req.method = "POST" then
      match req.body with
      | none => (⟨400, .text "Invalid request body", corsHeaders⟩, st, [])
      | some b =>
        if !jsStrTruthy b.email || !jsIntTruthy b.amount then
          (⟨400, .text "Email and amount are required", corsHeaders⟩, st, [])
        else
          let input : OfferInput := ⟨b.email.getD "", b.amount.getD 0, b.description⟩
          match submitDomainOffer domain input now st with
          | (.error _, _) =>
            (⟨400, .text "Invalid request body", corsHeaders⟩, st, [.submit domain input])
          | (.ok result, st2) =>
            (⟨200, .submitJson result, corsHeaders ++ [("Content-Type", "application/json")]⟩,
              st2, [.submit domain input])
    else
      (⟨200, .offersJson domain (getDomainOffers domain st).1,
          corsHeaders ++ [("Content-Type", "application/json")]⟩,
        st, [.listOffers domain])

/-! Sequential runs of the ledger operations, used to state the claims about
n successive calls. -/

/-- The offer `submitDomainOffer` constructs from an input and a timestamp. -/
def stampOffer (p : OfferInput × String) : DomainOffer :=
  ⟨p.1.email, p.1.amount, p.1.description, p.2⟩

/-- Run a sequence of `submitDomainOffer` calls (input paired with the
timestamp of the call), collecting the results. -/
def runSubmits (domain : String) (inputs : List (OfferInput × String)) (st : Storage) :
    List (Except Unit SubmitResult) × Storage :=
  match inputs with
  | [] => ([], st)
  | p :: rest =>
    let r := submitDomainOffer domain p.1 p.2 st
    let rr := runSubmits domain rest r.2
    (r.1 :: rr.1, rr.2)

/-- The results a run of submissions should produce when the log already
holds `base` offers: the i-th call succeeds with the stamped input and
`totalOffers = base + i + 1`. -/
def expectedSubmits (domain : String) (base : Nat) :
    List (OfferInput × String) → List (Except Unit SubmitResult)
  | [] => []
  | p :: rest => .ok ⟨domain, stampOffer p, base + 1⟩ :: expectedSubmits domain (base + 1) rest

/-- Run a sequence of `trackDomainRequest` calls, one per timestamp. -/
def runTracks (domain : String) (stamps : List String) (st : Storage) :
    List TrackResult × Storage :=
  match stamps with
  | [] => ([], st)
  | now :: rest =>
    let r := trackDomainRequest domain now st
    let rr := runTracks domain rest r.2
    (r.1 :: rr.1, rr.2)

/-- The results a run of counter increments should produce starting from
count `base`: the i-th call returns `base + i + 1`. -/
def expectedTracks (domain : String) (base : Int) : List String → List TrackResult
  | [] => []
  | now :: rest => ⟨domain, .int (base + 1), now⟩ :: expectedTracks domain (base + 1) rest

theorem storageGet_put_self (st : Storage) (k : String) (v : StoredVal) :
    storageGet (storagePut st k v) k = some v := by
  induction st with
  | nil => simp [storagePut, storageGet]
  | cons p rest ih =>
    obtain ⟨k2, v2⟩ := p
    by_cases h : k2 = k <;> simp [storagePut, storageGet, h, ih]

theorem storageGet_put_ne (st : Storage) (k k2 : String) (v : StoredVal) (h : k2 ≠ k) :
    storageGet (storagePut st k v) k2 = storageGet st k2 := by
  induction st with
  | nil => simp [storagePut, storageGet, Ne.symm h]
  | cons p rest ih =>
    obtain ⟨k3, v3⟩ := p
    by_cases h2 : k3 = k
    · simp [storagePut, storageGet, h2, Ne.symm h]
    · by_cases h3 : k3 = k2 <;> simp [storagePut, storageGet, h2, h3, ih, h]

theorem runSubmits_spec (domain : String) :
    ∀ (inputs : List (OfferInput × String)) (st : Storage) (l0 : List DomainOffer),
      jsOrEmpty (storageGet st (storageKey domain)) = .inr l0 →
      (runSubmits domain inputs st).1 = expectedSubmits domain l0.length inputs ∧
      jsOrEmpty (storageGet (runSubmits domain inputs st).2 (storageKey domain)) =
        .inr (l0 ++ inputs.map stampOffer) := by
  intro inputs
  induction inputs with
  | nil => intro st l0 h; simpa [runSubmits, expectedSubmits] using h
  | cons p rest ih =>
    intro st l0 h
    have hsub : submitDomainOffer domain p.1 p.2 st =
        (.ok ⟨domain, stampOffer p, l0.length + 1⟩,
          storagePut st (storageKey domain) (.offers (l0 ++ [stampOffer p]))) := by
      simp [submitDomainOffer, h, stampOffer]
    have hstep : jsOrEmpty (storageGet
        (storagePut st (storageKey domain) (.offers (l0 ++ [stampOffer p])))
        (storageKey domain)) = .inr (l0 ++ [stampOffer p]) := by
      simp [storageGet_put_self, jsOrEmpty]
    obtain ⟨ih1, ih2⟩ := ih _ _ hstep
    refine ⟨?_, ?_⟩
    · simp [runSubmits, hsub, ih1, expectedSubmits]
    · simpa [runSubmits, hsub] using ih2

theorem expectedSubmits_get (domain : String) :
    ∀ (inputs : List (OfferInput × String)) (base i : Nat) (hi : i < inputs.length),
      (expectedSubmits domain base inputs)[i]? =
        some (.ok ⟨domain, stampOffer inputs[i], base + i + 1⟩) := by
  intro inputs
  induction inputs with
  | nil => intro base i hi; simp at hi
  | cons p rest ih =>
    intro base i hi
    cases i with
    | zero => simp [expectedSubmits]
    | succ j =>
      have hj : j < rest.length := by simpa using hi
      have harith : base + 1 + j + 1 = base + (j + 1) + 1 := by omega
      have := ih (base + 1) j hj
      rw [harith] at this
      simp only [expectedSubmits, List.getElem?_cons_succ, List.getElem_cons_succ]
      exact this

theorem runTracks_spec (domain : String) :
    ∀ (stamps : List String) (st : Storage) (c : Int), 0 ≤ c →
      jsOrZero (storageGet st (storageKey domain)) = .inl (.int c) →
      (runTracks domain stamps st).1 = expectedTracks domain c stamps ∧
      jsOrZero (storageGet (runTracks domain stamps st).2 (storageKey domain)) =
        .inl (.int (c + stamps.length)) := by
  intro stamps
  induction stamps with
  | nil => intro st c hc h; simpa [runTracks, expectedTracks] using h
  | cons now rest ih =>
    intro st c hc h
    have htrack : trackDomainRequest domain now st =
        (⟨domain, .int (c + 1), now⟩,
          storagePut st (storageKey domain) (.num (.int (c + 1)))) := by
      simp [trackDomainRequest, h, jsIncrement]
    have hstep : jsOrZero (storageGet
        (storagePut st (storageKey domain) (.num (.int (c + 1))))
        (storageKey domain)) = .inl (.int (c + 1)) := by
      have : (JsNum.int (c + 1)).truthy = true := by
        simp [JsNum.truthy]; omega
      simp [storageGet_put_self, jsOrZero, this]
    obtain ⟨ih1, ih2⟩ := ih _ (c + 1) (by omega) hstep
    refine ⟨?_, ?_⟩
    · simp [runTracks, htrack, ih1, expectedTracks]
    · rw [runTracks, htrack]
      simp only at ih2 ⊢
      rw [ih2]
      congr 2
      simp only [List.length_cons]
      push_cast
      ring

theorem expectedTracks_get (domain : String) :
    ∀ (stamps : List String) (base : Int) (i : Nat) (hi : i < stamps.length),
      (expectedTracks domain base stamps)[i]? =
        some ⟨domain, .int (base + i + 1), stamps[i]⟩ := by
  intro stamps
  induction stamps with
  | nil => intro base i hi; simp at hi
  | cons now rest ih =>
    intro base i hi
    cases i with
    | zero => simp [expectedTracks]
    | succ j =>
      have hj : j < rest.length := by simpa using hi
      have harith : base + 1 + (j : Int) + 1 = base + ((j : Nat) + 1 : Nat) + 1 := by
        push_cast
        ring
      have := ih (base + 1) j hj
      rw [harith] at this
      simp only [expectedTracks, List.getElem?_cons_succ, List.getElem_cons_succ]
      exact this

/-! Claim theorems. -/

/-- Claim C1: starting from an absent storage entry, every call in a sequence
of `submitDomainOffer` calls succeeds; the i-th result carries an offer with
the email, amount and description of the i-th input (timestamped) and
`totalOffers = i + 1`; after any prefix of k calls the stored log is exactly
the first k stamped inputs in order (prior entries preserved, in order); and
`getDomainOffers` after all calls returns all stamped inputs in submission
order. -/
theorem C1_submit_sequence (domain : String) (inputs : List (OfferInput × String))
    (st : Storage) (h : storageGet st (storageKey domain) = none) :
    (runSubmits domain inputs st).1 = expectedSubmits domain 0 inputs ∧
    (∀ (i : Nat) (hi : i < inputs.length),
      (runSubmits domain inputs st).1[i]? =
        some (.ok ⟨domain, stampOffer inputs[i], i + 1⟩)) ∧
    (∀ k : Nat,
      (getDomainOffers domain (runSubmits domain (inputs.take k) st).2).1 =
        .inr ((inputs.take k).map stampOffer)) ∧
    (getDomainOffers domain (runSubmits domain inputs st).2).1 =
      .inr (inputs.map stampOffer) := by
  have h0 : jsOrEmpty (storageGet st (storageKey domain)) = .inr [] := by
    simp [jsOrEmpty, h]
  obtain ⟨h1, h2⟩ := runSubmits_spec domain inputs st [] h0
  refine ⟨by simpa using h1, ?_, ?_, ?_⟩
  · intro i hi
    rw [show (runSubmits domain inputs st).1 = expectedSubmits domain 0 inputs from
      by simpa using h1]
    simpa using expectedSubmits_get domain inputs 0 i hi
  · intro k
    obtain ⟨_, hk⟩ := runSubmits_spec domain (inputs.take k) st [] h0
    simpa [getDomainOffers] using hk
  · simpa [getDomainOffers] using h2

theorem C1_submit_sequence_witness :
    storageGet ([] : Storage) (storageKey "example.com") = none ∧
    (getDomainOffers "example.com"
        (runSubmits "example.com"
          [(⟨"a@b.com", 500, none⟩, "T1"), (⟨"c@d.net", 42, some "hi"⟩, "T2")] []).2).1 =
      .inr [⟨"a@b.com", 500, none, "T1"⟩, ⟨"c@d.net", 42, some "hi", "T2"⟩] :=
  ⟨rfl, by
    have := (C1_submit_sequence "example.com"
      [(⟨"a@b.com", 500, none⟩, "T1"), (⟨"c@d.net", 42, some "hi"⟩, "T2")] [] rfl).2.2.2
    simpa [stampOffer] using this⟩

/-- Claim C5: with the storage entry absent, `getDomainRequests` returns 0;
after a sequence of `trackDomainRequest` calls the i-th call returns count
i + 1 (1-based: the i-th call returns i) and `getDomainRequests` afterwards
returns the number of calls. -/
theorem C5_counter_sequence (domain : String) (stamps : List String) (st : Storage)
    (h : storageGet st (storageKey domain) = none) :
    (getDomainRequests domain st).1 = .inl (.int 0) ∧
    (runTracks domain stamps st).1 = expectedTracks domain 0 stamps ∧
    (∀ (i : Nat) (hi : i < stamps.length),
      (runTracks domain stamps st).1[i]? =
        some ⟨domain, .int ((i : Int) + 1), stamps[i]⟩) ∧
    (getDomainRequests domain (runTracks domain stamps st).2).1 =
      .inl (.int (stamps.length : Int)) := by
  have h0 : jsOrZero (storageGet st (storageKey domain)) = .inl (.int 0) := by
    simp [jsOrZero, h]
  obtain ⟨h1, h2⟩ := runTracks_spec domain stamps st 0 le_rfl h0
  refine ⟨by simp [getDomainRequests, h0], h1, ?_, ?_⟩
  · intro i hi
    rw [h1]
    simpa using expectedTracks_get domain stamps 0 i hi
  · simpa [getDomainRequests] using h2

theorem C5_counter_sequence_witness :
    storageGet ([] : Storage) (storageKey "d") = none ∧
    (getDomainRequests "d" (runTracks "d" ["T1", "T2", "T3"] []).2).1 =
      .inl (.int 3) :=
  ⟨rfl, by
    have := (C5_counter_sequence "d" ["T1", "T2", "T3"] [] rfl).2.2.2
    simpa using this⟩

/-- Claim C9: `getDomainRequests` and `getDomainOffers` are pure reads: for
every domain and storage state they return the storage unchanged, so the
contents of the touched key and of every other key are preserved. -/
theorem C9_reads_pure (domain : String) (st : Storage) (k : String) :
    (getDomainRequests domain st).2 = st ∧
    storageGet (getDomainRequests domain st).2 k = storageGet st k ∧
    (getDomainOffers domain st).2 = st ∧
    storageGet (getDomainOffers domain st).2 k = storageGet st k :=
  ⟨rfl, rfl, rfl, rfl⟩

/-- Claim C2 counterexample: `submitDomainOffer` does not replace a stored
counter.  With the number 3 stored under `domain:example.com`, the offer
list read coerces to the truthy number 3, `offers.push` throws, and the
counter is still stored afterwards. -/
theorem C2_counterexample :
    (submitDomainOffer "example.com" ⟨"a@b.com", 500, none⟩ "T"
        [("domain:example.com", .num (.int 3))]).1 = .error () ∧
    storageGet (submitDomainOffer "example.com" ⟨"a@b.com", 500, none⟩ "T"
        [("domain:example.com", .num (.int 3))]).2 "domain:example.com" =
      some (.num (.int 3)) :=
  ⟨rfl, rfl⟩

/-- Claim C2 (amended): the counter and offer operations all use the single
storage key `domain:<name>` and leave every other key unchanged; a counter
write by `trackDomainRequest` does replace a stored offer list (with count 1
for an empty list, NaN for a non-empty one); but `submitDomainOffer` on a key
holding a truthy (non-zero, non-NaN) counter throws a TypeError and leaves
the counter in place, replacing a counter with a fresh one-offer list only
when the counter is falsy (0 or NaN). -/
theorem C2_shared_key (domain now : String) (input : OfferInput) (st : Storage)
    (k : String) (hk : k ≠ storageKey domain) :
    storageGet (trackDomainRequest domain now st).2 k = storageGet st k ∧
    storageGet (submitDomainOffer domain input now st).2 k = storageGet st k ∧
    (∀ l, storageGet st (storageKey domain) = some (.offers l) →
      storageGet (trackDomainRequest domain now st).2 (storageKey domain) =
        some (.num (jsIncrement (.inr l)))) ∧
    (∀ v, storageGet st (storageKey domain) = some (.num v) → v.truthy = true →
      (submitDomainOffer domain input now st).1 = .error () ∧
      storageGet (submitDomainOffer domain input now st).2 (storageKey domain) =
        some (.num v)) ∧
    (∀ v, storageGet st (storageKey domain) = some (.num v) → v.truthy = false →
      storageGet (submitDomainOffer domain input now st).2 (storageKey domain) =
        some (.offers [⟨input.email, input.amount, input.description, now⟩])) := by
  refine ⟨?_, ?_, ?_, ?_, ?_⟩
  · simp [trackDomainRequest, storageGet_put_ne _ _ _ _ hk]
  · cases hj : jsOrEmpty (storageGet st (storageKey domain)) with
    | inl v => simp [submitDomainOffer, hj]
    | inr l => simp [submitDomainOffer, hj, storageGet_put_ne _ _ _ _ hk]
  · intro l hl
    simp [trackDomainRequest, jsOrZero, hl, storageGet_put_self]
  · intro v hv htruthy
    have hj2 : jsOrEmpty (some (StoredVal.num v)) = .inl v := by
      simp [jsOrEmpty, htruthy]
    simp [submitDomainOffer, hv, hj2]
  · intro v hv hfalsy
    have hj : jsOrEmpty (storageGet st (storageKey domain)) = .inr [] := by
      simp [jsOrEmpty, hv, hfalsy]
    simp [submitDomainOffer, hj, storageGet_put_self]

theorem C2_shared_key_witness :
    ("other" ≠ storageKey "d") ∧
    storageGet (trackDomainRequest "d" "T"
        [("domain:d", .offers [⟨"a@b.com", 500, none, "T0"⟩])]).2 (storageKey "d") =
      some (.num .nan) :=
  ⟨by decide, by
    have := (C2_shared_key "d" "T" ⟨"a@b.com", 500, none⟩
        [("domain:d", .offers [⟨"a@b.com", 500, none, "T0"⟩])] "other"
        (by decide)).2.2.1 [⟨"a@b.com", 500, none, "T0"⟩] (by decide)
    simpa [jsIncrement] using this⟩

/-- The authorization check passes exactly when the header is present, starts
with the string Bearer-space, and the segment between the first space and the
second space (or the end of the header) equals the secret. -/
theorem authOk_iff (a : Option String) (secret : String) :
    authOk a secret = true ↔
      ∃ t, a = some t ∧ jsStartsWith t "Bearer " = true ∧
        (jsSplitOnSpace t)[1]? = some secret := by
  cases a with
  | none => simp [authOk]
  | some t =>
    cases hsplit : (jsSplitOnSpace t)[1]? with
    | none => simp [authOk, hsplit]
    | some tok => simp [authOk, hsplit]

/-- Claim C8: every OPTIONS request, authorized or not, receives a 200
response with an empty body and exactly the CORS headers, with storage
untouched and no ledger call made. -/
theorem C8_options (req : Request) (secret now : String) (st : Storage)
    (hm : req.method = "OPTIONS") :
    fetch req secret now st = (⟨200, .empty, corsHeaders⟩, st, []) := by
  simp [fetch, hm]

theorem C8_options_witness :
    (Request.mk "OPTIONS" none none none).method = "OPTIONS" ∧
    fetch ⟨"OPTIONS", none, none, none⟩ "s" "T" [] =
      (⟨200, .empty, corsHeaders⟩, [], []) :=
  ⟨rfl, C8_options ⟨"OPTIONS", none, none, none⟩ "s" "T" [] rfl⟩

/-- Claim C4: a non-OPTIONS request whose Authorization header is missing, or
whose token segment differs from the secret, receives a 401 with body
Unauthorized, with storage untouched and no ledger call made. -/
theorem C4_unauthorized (req : Request) (secret now : String) (st : Storage)
    (hm : req.method ≠ "OPTIONS")
    (h : req.authorization = none ∨
      ∀ t, req.authorization = some t → (jsSplitOnSpace t)[1]? ≠ some secret) :
    fetch req secret now st =
      (⟨401, .text "Unauthorized", corsHeaders ++ [("Content-Type", "application/json")]⟩,
        st, []) := by
  have hauth : authOk req.authorization secret = false := by
    cases h with
    | inl h0 => simp [authOk, h0]
    | inr h0 =>
      cases ha : req.authorization with
      | none => simp [authOk]
      | some t =>
        cases hsplit : (jsSplitOnSpace t)[1]? with
        | none => simp [authOk, hsplit]
        | some tok =>
          have hne : tok ≠ secret := fun he => h0 t ha (by rw [hsplit, he])
          simp [authOk, hsplit, hne]
  simp [fetch, hm, hauth]

theorem C4_unauthorized_witness :
    (Request.mk "POST" (some "Bearer wrong") (some "example.com")
        (some ⟨some "a@b.com", some 500, none⟩)).method ≠ "OPTIONS" ∧
    fetch ⟨"POST", some "Bearer wrong", some "example.com",
        some ⟨some "a@b.com", some 500, none⟩⟩ "secret" "T" [] =
      (⟨401, .text "Unauthorized", corsHeaders ++ [("Content-Type", "application/json")]⟩,
        [], []) :=
  ⟨by decide,
    C4_unauthorized _ "secret" "T" [] (by decide)
      (.inr (by intro t ht; injection ht with ht2; subst ht2; decide))⟩

/-- Claim C10: a non-OPTIONS request escapes the 401 Unauthorized response
exactly when its Authorization header starts with Bearer-space and the
segment between the first space and the second space (or the end of the
header) equals the secret; trailing content after the token is accepted. -/
theorem C10_auth_token_parsing (req : Request) (secret now : String) (st : Storage)
    (hm : req.method ≠ "OPTIONS") :
    (fetch req secret now st).1.body ≠ .text "Unauthorized" ↔
      ∃ t, req.authorization = some t ∧ jsStartsWith t "Bearer " = true ∧
        (jsSplitOnSpace t)[1]? = some secret := by
  rw [← authOk_iff]
  constructor
  · intro hne
    cases hauth : authOk req.authorization secret with
    | true => rfl
    | false => exact absurd (by simp [fetch, hm, hauth]) hne
  · intro hauth
    simp only [fetch]
    rw [if_neg hm, if_neg (by simp [hauth] : ¬authOk req.authorization secret = false)]
    split
    · simp
    · split
      · split
        · simp
        · split
          · simp
          · split <;> simp
      · simp

theorem C10_auth_token_parsing_witness :
    (Request.mk "GET" (some "Bearer tok trailing") (some "example.com") none).method ≠
      "OPTIONS" ∧
    ((fetch ⟨"GET", some "Bearer tok trailing", some "example.com", none⟩
        "tok" "T" []).1.body ≠ .text "Unauthorized" ↔
      ∃ t, (some "Bearer tok trailing" : Option String) = some t ∧
        jsStartsWith t "Bearer " = true ∧ (jsSplitOnSpace t)[1]? = some "tok") :=
  ⟨by decide,
    C10_auth_token_parsing ⟨"GET", some "Bearer tok trailing", some "example.com", none⟩
      "tok" "T" [] (by decide)⟩

/-- Claim C3 counterexample: the missing-domain 400 error response carries no
CORS headers at all: an authorized GET without a domain parameter yields
status 400, body Domain parameter is required, and an empty header list. -/
theorem C3_counterexample :
    (fetch ⟨"GET", some "Bearer s", none, none⟩ "s" "T" []).1 =
      ⟨400, .text "Domain parameter is required", []⟩ := by
  decide

/-- Claim C3 (amended): the 401 Unauthorized, 400 invalid-body and 400
missing-email/amount responses all carry the full CORS header set, but the
400 missing-domain response carries no headers at all. -/
theorem C3_cors_on_errors (req : Request) (secret now : String) (st : Storage) :
    ((fetch req secret now st).1.body = .text "Unauthorized" →
      ∀ p ∈ corsHeaders, p ∈ (fetch req secret now st).1.headers) ∧
    ((fetch req secret now st).1.body = .text "Invalid request body" →
      ∀ p ∈ corsHeaders, p ∈ (fetch req secret now st).1.headers) ∧
    ((fetch req secret now st).1.body = .text "Email and amount are required" →
      ∀ p ∈ corsHeaders, p ∈ (fetch req secret now st).1.headers) ∧
    ((fetch req secret now st).1.body = .text "Domain parameter is required" →
      (fetch req secret now st).1.headers = []) := by
  simp only [fetch]
  split
  · simp
  · split
    · simp
      exact fun a b h => Or.inl h
    · split
      · simp
      · split
        · split
          · simp
          · split
            · simp
            · split <;> simp
        · simp

/-- Claim C6: an authorized POST with a non-empty domain parameter returns
400 Invalid request body when the body fails to parse, and 400 Email and
amount are required when the parsed body lacks a truthy email or a truthy
amount (0 counts as missing); in both cases storage is unchanged and no
ledger call is made. -/
theorem C6_post_validation (req : Request) (secret now : String) (st : Storage)
    (d : String) (hm : req.method = "POST")
    (hauth : authOk req.authorization secret = true)
    (hd : req.domain = some d) (hne : d ≠ "") :
    (req.body = none →
      fetch req secret now st =
        (⟨400, .text "Invalid request body", corsHeaders⟩, st, [])) ∧
    (∀ b, req.body = some b →
      jsStrTruthy b.email = false ∨ jsIntTruthy b.amount = false →
      fetch req secret now st =
        (⟨400, .text "Email and amount are required", corsHeaders⟩, st, [])) := by
  have hd2 : req.domain.getD "" = d := by rw [hd]; rfl
  constructor
  · intro hb
    simp [fetch, hm, hauth, hd2, hne, hb]
  · intro b hb hval
    have hcond : (!jsStrTruthy b.email || !jsIntTruthy b.amount) = true := by
      rcases hval with h0 | h0 <;> simp [h0]
    simp [fetch, hm, hauth, hd2, hne, hb, hcond]

theorem C6_post_validation_witness :
    authOk (some "Bearer s") "s" = true ∧
    fetch ⟨"POST", some "Bearer s", some "example.com", some ⟨none, some 0, none⟩⟩
        "s" "T" [] =
      (⟨400, .text "Email and amount are required", corsHeaders⟩, [], []) :=
  ⟨by decide,
    (C6_post_validation ⟨"POST", some "Bearer s", some "example.com",
        some ⟨none, some 0, none⟩⟩ "s" "T" [] "example.com" rfl (by decide) rfl
        (by decide)).2 ⟨none, some 0, none⟩ rfl (.inl rfl)⟩

/-- Claim C7: an authorized non-POST, non-OPTIONS request with a non-empty
domain parameter makes exactly one listOffers ledger call and returns 200
with the JSON body of the domain and the stored offer sequence, which is
empty when the key is absent; storage is unchanged. -/
theorem C7_read_route (req : Request) (secret now : String) (st : Storage)
    (d : String) (l : List DomainOffer)
    (hm1 : req.method ≠ "OPTIONS") (hm2 : req.method ≠ "POST")
    (hauth : authOk req.authorization secret = true)
    (hd : req.domain = some d) (hne : d ≠ "")
    (hl : storageGet st (storageKey d) = none ∧ l = [] ∨
          storageGet st (storageKey d) = some (.offers l)) :
    fetch req secret now st =
      (⟨200, .offersJson d (.inr l),
          corsHeaders ++ [("Content-Type", "application/json")]⟩,
        st, [.listOffers d]) := by
  have hd2 : req.domain.getD "" = d := by rw [hd]; rfl
  have hoff : (getDomainOffers d st).1 = .inr l := by
    rcases hl with ⟨h0, h1⟩ | h0
    · simp [getDomainOffers, jsOrEmpty, h0, h1]
    · simp [getDomainOffers, jsOrEmpty, h0]
  simp [fetch, hm1, hm2, hauth, hd2, hne, hoff]

theorem C7_read_route_witness :
    authOk (some "Bearer s") "s" = true ∧
    fetch ⟨"HEAD", some "Bearer s", some "example.com", none⟩ "s" "T" [] =
      (⟨200, .offersJson "example.com" (.inr []),
          corsHeaders ++ [("Content-Type", "application/json")]⟩,
        [], [.listOffers "example.com"]) :=
  ⟨by decide,
    C7_read_route ⟨"HEAD", some "Bearer s", some "example.com", none⟩ "s" "T" []
      "example.com" [] (by decide) (by decide) (by decide) rfl (by decide)
      (.inl ⟨rfl, rfl⟩)⟩
